import Mathlib

/-!
The request handlers of `internal/server/routes.go` (remote-wv-go).

A shallow embedding of the handlers of the license key gateway and proofs of the
properties its specification states about them.

Conventions of the embedding.

* A Go `[]byte` is a `List Nat`; wherever a byte is inspected it is reduced `% 256`.
* A Go `(T, error)` result is an `Except GoError T`.
* What the handlers call outside this file (the process environment, the file
  system, the base64 decoder, the `widevine` session, the random source, the
  request body parser) is passed in as data: an `Env`, the parsed body, the
  bytes the random source delivered.
* The key cache (`s.DB`) is an interface `DB σ` over a store state `σ` that is
  threaded through the handlers.
* Every call that leaves the handler is recorded, in program order, in a trace of
  `Event`s, so that "this call is never made" is a statement about the trace.
-/

namespace Server

/-! ## Go values -/

/-- A Go `error` value: the address of the object behind the interface (what `==`
compares) and the text its `Error()` method returns. -/
structure GoError where
  addr : Nat
  msg : String
deriving DecidableEq, Repr

/-- The method `err.Error()`. -/
def GoError.Error (e : GoError) : String := e.msg

/-- The values the handlers put into a `fiber.Map` (`map[string]interface{}`). -/
inductive GoValue where
  /-- a Go `string` -/
  | string (s : String)
  /-- a Go `[]byte` -/
  | bytes (b : List Nat)
  /-- a Go `error` made by `errors.New`, that is a `*errors.errorString` -/
  | error (e : GoError)
deriving DecidableEq, Repr

/-- A JSON document, as a client reads it after parsing the response body. -/
inductive Json where
  | str (s : String)
  | obj (members : List (String × Json))
deriving Repr

/-- The member `name` of a JSON object, if it has one. -/
def Json.member : Json → String → Option Json
  | .str _, _ => none
  | .obj ms, name => (ms.find? (fun m => m.1 == name)).map (fun m => m.2)

/-! ## encoding/hex, encoding/base64, encoding/base32 -/

/-- The table `hextable` of `encoding/hex`. -/
def hextable : List Char := "0123456789abcdef".toList

/-- The function `hex.EncodeToString`: two lower-case digits per byte, high nibble first. -/
def hexEncodeToString (src : List Nat) : String :=
  String.mk (src.flatMap (fun v =>
    [hextable.getD ((v % 256) / 16) '0', hextable.getD ((v % 256) % 16) '0']))

/-- An `Encoding` of `encoding/base32` or `encoding/base64`: the alphabet and the
padding character (`none` is `NoPadding`). -/
structure Encoding where
  encode : List Char
  padChar : Option Char

/-- The method `enc.WithPadding(padding)`. -/
def Encoding.WithPadding (enc : Encoding) (padding : Option Char) : Encoding :=
  { enc with padChar := padding }

/-- The constant `base32.NoPadding` (also `base64.NoPadding`). -/
def NoPadding : Option Char := none

/-- The value `base32.StdEncoding`: the RFC 4648 alphabet, padded with `=`. -/
def base32StdEncoding : Encoding :=
  { encode := "ABCDEFGHIJKLMNOPQRSTUVWXYZ234567".toList, padChar := some '=' }

/-- The value `base64.StdEncoding`: the RFC 4648 alphabet, padded with `=`. -/
def base64StdEncoding : Encoding :=
  { encode := "ABCDEFGHIJKLMNOPQRSTUVWXYZabcdefghijklmnopqrstuvwxyz0123456789+/".toList,
    padChar := some '=' }

/-- The eight 5-bit groups of a 5-byte quantum, most significant first. -/
def base32Quantum (b0 b1 b2 b3 b4 : Nat) : List Nat :=
  let n := (b0 % 256) * 2 ^ 32 + (b1 % 256) * 2 ^ 24 + (b2 % 256) * 2 ^ 16
    + (b3 % 256) * 2 ^ 8 + b4 % 256
  [n / 2 ^ 35 % 32, n / 2 ^ 30 % 32, n / 2 ^ 25 % 32, n / 2 ^ 20 % 32,
   n / 2 ^ 15 % 32, n / 2 ^ 10 % 32, n / 2 ^ 5 % 32, n % 32]

/-- The characters of a final, short quantum: the first `k` groups, then padding
up to eight characters unless the encoding has none. -/
def base32Tail (enc : Encoding) (groups : List Nat) (k : Nat) : List Char :=
  (groups.take k).map (fun g => enc.encode.getD g 'A') ++
    (match enc.padChar with
     | none => []
     | some p => List.replicate (8 - k) p)

/-- The method `Encode` of `encoding/base32`, quantum by quantum. -/
def base32Encode (enc : Encoding) : List Nat → List Char
  | [] => []
  | [b0] => base32Tail enc (base32Quantum b0 0 0 0 0) 2
  | [b0, b1] => base32Tail enc (base32Quantum b0 b1 0 0 0) 4
  | [b0, b1, b2] => base32Tail enc (base32Quantum b0 b1 b2 0 0) 5
  | [b0, b1, b2, b3] => base32Tail enc (base32Quantum b0 b1 b2 b3 0) 7
  | b0 :: b1 :: b2 :: b3 :: b4 :: rest =>
    (base32Quantum b0 b1 b2 b3 b4).map (fun g => enc.encode.getD g 'A') ++ base32Encode enc rest

/-- The method `EncodeToString` of `encoding/base32`. -/
def base32EncodeToString (enc : Encoding) (src : List Nat) : String :=
  String.mk (base32Encode enc src)

/-- The four 6-bit groups of a 3-byte quantum, most significant first. -/
def base64Quantum (b0 b1 b2 : Nat) : List Nat :=
  let n := (b0 % 256) * 2 ^ 16 + (b1 % 256) * 2 ^ 8 + b2 % 256
  [n / 2 ^ 18 % 64, n / 2 ^ 12 % 64, n / 2 ^ 6 % 64, n % 64]

/-- The characters of a final, short quantum of `encoding/base64`. -/
def base64Tail (enc : Encoding) (groups : List Nat) (k : Nat) : List Char :=
  (groups.take k).map (fun g => enc.encode.getD g 'A') ++
    (match enc.padChar with
     | none => []
     | some p => List.replicate (4 - k) p)

/-- The method `Encode` of `encoding/base64`, quantum by quantum. -/
def base64Encode (enc : Encoding) : List Nat → List Char
  | [] => []
  | [b0] => base64Tail enc (base64Quantum b0 0 0) 2
  | [b0, b1] => base64Tail enc (base64Quantum b0 b1 0) 3
  | b0 :: b1 :: b2 :: rest =>
    (base64Quantum b0 b1 b2).map (fun g => enc.encode.getD g 'A') ++ base64Encode enc rest

/-- The method `EncodeToString` of `encoding/base64`. -/
def base64EncodeToString (enc : Encoding) (src : List Nat) : String :=
  String.mk (base64Encode enc src)

/-! ## encoding/json, as `c.JSON` applies it to a `fiber.Map` -/

/-- The function `json.Marshal` on one value of a `fiber.Map`. A string is a JSON
string, a `[]byte` is the JSON string of its standard base64 text, and a
`*errors.errorString`, a pointer to a struct without exported fields and without a
`MarshalJSON` or `MarshalText` method, is the empty object. -/
def marshalValue : GoValue → Json
  | .string s => .str s
  | .bytes b => .str (base64EncodeToString base64StdEncoding b)
  | .error _ => .obj []

/-- The function `json.Marshal` on a `fiber.Map`. -/
def marshal (m : List (String × GoValue)) : Json :=
  .obj (m.map (fun kv => (kv.1, marshalValue kv.2)))

/-! ## The data of `routes.go` and of the packages it calls -/

/-- The struct `input`: the JSON body shared by all endpoints. -/
structure input where
  PSSH : String := ""
  Challenge : String := ""
  License : String := ""
  Passkey : String := ""
  SuperUser : Int := 0
  Sudoer : Int := 0
deriving DecidableEq, Repr

/-- The variable `PsshNotFound`, made once by `errors.New`. -/
def PsshNotFound : GoError := { addr := 1, msg := "pssh field can not be emtpy" }

/-- The variable `keyauth.ErrMissingOrMalformedAPIKey` of the fiber middleware. -/
def ErrMissingOrMalformedAPIKey : GoError := { addr := 2, msg := "missing or malformed API Key" }

/-- The enum value `widevine.License_KeyContainer_SIGNING`. -/
def License_KeyContainer_SIGNING : Int := 1

/-- The enum value `widevine.License_KeyContainer_CONTENT`. -/
def License_KeyContainer_CONTENT : Int := 2

/-- The struct `widevine.Key`: one entry of a parsed license. The field `Type`
(here `Type_`) is a protobuf enum, an `int32`. -/
structure Key where
  ID : List Nat
  Type_ : Int
  Value : List Nat
deriving DecidableEq, Repr

/-- The session `widevine.CDM`, seen through the two methods the handlers call. -/
structure CDM where
  GetLicenseRequest : Except GoError (List Nat)
  GetLicenseKeys : List Nat → List Nat → Except GoError (List Key)

/-- An opened `*os.File`: the size `file.Stat()` reports and the buffer of a given
size after `file.Read` filled it. -/
structure File where
  Stat : Except GoError Nat
  Read : Nat → Except GoError (List Nat)

/-- What the handlers reach outside the program: `os.Getenv`, `os.Open`,
`base64.StdEncoding.DecodeString` and `widevine.NewCDM`. -/
structure Env where
  Getenv : String → String
  Open : String → Except GoError File
  DecodeString : String → Except GoError (List Nat)
  NewCDM : List Nat → List Nat → List Nat → Except GoError CDM

/-- The record `s.DB.Get` returns. -/
structure KeyRecord where
  PSSH : String
  DecryptionKey : String
deriving DecidableEq, Repr

/-- The key cache behind `s.DB`, over a store state `σ`: `Insert` returns the new
state and the error (`none` is `nil`), `Get` reads. -/
structure DB (σ : Type) where
  Insert : σ → String → String → σ × Option GoError
  Get : σ → String → Except GoError KeyRecord

/-- A call that leaves the handler. -/
inductive Event where
  | Getenv (name : String)
  | Open (path : String)
  | Stat
  | Read
  | Close
  | DecodeString (s : String)
  | NewCDM
  | GetLicenseRequest
  | GetLicenseKeys
  | Insert (pssh key : String)
  | Get (pssh : String)
  | Printf (msg : String)
deriving DecidableEq, Repr

/-- A response: the status set by `c.Status` and the `fiber.Map` given to `JSON`. -/
structure Response where
  status : Nat
  body : List (String × GoValue)
deriving DecidableEq, Repr

/-- The JSON document a client receives. -/
def Response.json (r : Response) : Json := marshal r.body

/-- What a handler that uses the cache leaves behind: the response, the store
state and the calls it made. -/
structure Out (σ : Type) where
  resp : Response
  db : σ
  trace : List Event

def StatusOK : Nat := 200
def StatusBadRequest : Nat := 400
def StatusUnauthorized : Nat := 401
def StatusInternalServerError : Nat := 500

/-! ## The functions of `routes.go` -/

/-- The function `errHandler`. -/
def errHandler (err : GoError) : Response :=
  if err = ErrMissingOrMalformedAPIKey then
    { status := StatusUnauthorized, body := [("error", .string err.Error)] }
  else
    { status := StatusUnauthorized, body := [("error", .string err.Error)] }

/-- The function `readAsByte`: open, stat, read into a buffer of the reported size;
the deferred `Close` runs on every return after a successful open. -/
def readAsByte (env : Env) (filename : String) : Except GoError (List Nat) × List Event :=
  match env.Open filename with
  | .error err => (.error err, [.Open filename])
  | .ok file =>
    match file.Stat with
    | .error err => (.error err, [.Open filename, .Stat, .Close])
    | .ok size =>
      match file.Read size with
      | .error err => (.error err, [.Open filename, .Stat, .Read, .Close])
      | .ok bs => (.ok bs, [.Open filename, .Stat, .Read, .Close])

/-- The function `getCDM`. -/
def getCDM (env : Env) (pssh : String) : Except GoError CDM × List Event :=
  let clientIDPath := env.Getenv "WV_CLIENT_ID"
  let privateKeyPath := env.Getenv "WV_PRIVATE_KEY"
  let t0 : List Event := [.Getenv "WV_CLIENT_ID", .Getenv "WV_PRIVATE_KEY"]
  if clientIDPath = "" ∨ privateKeyPath = "" then
    (.error { addr := 3, msg := "failed to load widevine client_id or private_key" }, t0)
  else
    match readAsByte env clientIDPath with
    | (.error err, t1) => (.error err, t0 ++ t1)
    | (.ok clientID, t1) =>
      match readAsByte env privateKeyPath with
      | (.error err, t2) => (.error err, t0 ++ t1 ++ t2)
      | (.ok privateKey, t2) =>
        match env.DecodeString pssh with
        | .error err => (.error err, t0 ++ t1 ++ t2 ++ [.DecodeString pssh])
        | .ok initData =>
          match env.NewCDM privateKey clientID initData with
          | .error err => (.error err, t0 ++ t1 ++ t2 ++ [.DecodeString pssh, .NewCDM])
          | .ok cdm => (.ok cdm, t0 ++ t1 ++ t2 ++ [.DecodeString pssh, .NewCDM])

/-- The function `generatePasskey`, given what `rand.Read` delivered into the
16-byte buffer. -/
def generatePasskey (rnd : Except GoError (List Nat)) : Except GoError String :=
  match rnd with
  | .error err => .error err
  | .ok randomBytes =>
    .ok (base32EncodeToString (base32StdEncoding.WithPadding NoPadding) randomBytes)

/-- The method `ChallengeHandler`, given the outcome of `c.BodyParser`. -/
def ChallengeHandler (env : Env) (body : Except GoError input) : Response × List Event :=
  match body with
  | .error err => ({ status := StatusInternalServerError, body := [("error", .string err.Error)] }, [])
  | .ok i =>
    if i.PSSH = "" then
      ({ status := StatusBadRequest, body := [("error", .error PsshNotFound)] }, [])
    else
      match getCDM env i.PSSH with
      | (.error err, t) =>
        ({ status := StatusInternalServerError, body := [("error", .string err.Error)] }, t)
      | (.ok cdm, t) =>
        match cdm.GetLicenseRequest with
        | .error err =>
          ({ status := StatusInternalServerError, body := [("error", .string err.Error)] },
            t ++ [.GetLicenseRequest])
        | .ok licenseRequest =>
          ({ status := StatusOK,
             body := [("challenge", .bytes licenseRequest), ("pssh", .string i.PSSH)] },
            t ++ [.GetLicenseRequest])

/-- The loop of `KeyHandler` over the extracted keys, from `decryptionKey := ""`. -/
def decryptionKeyOf (keys : List Key) : String :=
  keys.foldl (fun decryptionKey key =>
    if key.Type_ = License_KeyContainer_CONTENT then
      decryptionKey ++ (hexEncodeToString key.ID ++ ":" ++ hexEncodeToString key.Value)
    else decryptionKey) ""

/-- The method `KeyHandler`, given the outcome of `c.BodyParser` and the store. -/
def KeyHandler {σ : Type} (db : DB σ) (env : Env) (s : σ) (body : Except GoError input) : Out σ :=
  match body with
  | .error err =>
    { resp := { status := StatusInternalServerError, body := [("error", .string err.Error)] },
      db := s, trace := [] }
  | .ok i =>
    if i.Challenge = "" ∨ i.License = "" ∨ i.PSSH = "" then
      { resp := { status := StatusBadRequest,
                  body := [("error", .string "license or challange or pssh field can not be empty")] },
        db := s, trace := [] }
    else
      match getCDM env i.PSSH with
      | (.error err, t) =>
        { resp := { status := StatusInternalServerError, body := [("error", .string err.Error)] },
          db := s, trace := t }
      | (.ok cdm, t) =>
        match env.DecodeString i.Challenge with
        | .error err =>
          { resp := { status := StatusInternalServerError, body := [("error", .string err.Error)] },
            db := s, trace := t ++ [.DecodeString i.Challenge] }
        | .ok licenseRequest =>
          match env.DecodeString i.License with
          | .error err =>
            { resp := { status := StatusInternalServerError, body := [("error", .string err.Error)] },
              db := s, trace := t ++ [.DecodeString i.Challenge, .DecodeString i.License] }
          | .ok decodedLicense =>
            match cdm.GetLicenseKeys licenseRequest decodedLicense with
            | .error err =>
              { resp := { status := StatusInternalServerError,
                          body := [("error", .string err.Error)] },
                db := s,
                trace := t ++ [.DecodeString i.Challenge, .DecodeString i.License, .GetLicenseKeys] }
            | .ok keys =>
              let decryptionKey := decryptionKeyOf keys
              match db.Insert s i.PSSH decryptionKey with
              | (s1, some err) =>
                { resp := { status := StatusOK,
                            body := [("key", .string decryptionKey), ("pssh", .string i.PSSH)] },
                  db := s1,
                  trace := t ++ [.DecodeString i.Challenge, .DecodeString i.License,
                    .GetLicenseKeys, .Insert i.PSSH decryptionKey, .Printf err.Error] }
              | (s1, none) =>
                { resp := { status := StatusOK,
                            body := [("key", .string decryptionKey), ("pssh", .string i.PSSH)] },
                  db := s1,
                  trace := t ++ [.DecodeString i.Challenge, .DecodeString i.License,
                    .GetLicenseKeys, .Insert i.PSSH decryptionKey] }

/-- The method `ArsenalKeyHandler`, given the outcome of `c.BodyParser` and the store. -/
def ArsenalKeyHandler {σ : Type} (db : DB σ) (s : σ) (body : Except GoError input) : Out σ :=
  match body with
  | .error err =>
    { resp := { status := StatusInternalServerError, body := [("error", .string err.Error)] },
      db := s, trace := [] }
  | .ok i =>
    if i.PSSH = "" then
      { resp := { status := StatusBadRequest, body := [("error", .error PsshNotFound)] },
        db := s, trace := [] }
    else
      match db.Get s i.PSSH with
      | .error err =>
        { resp := { status := StatusInternalServerError, body := [("error", .string err.Error)] },
          db := s, trace := [.Get i.PSSH] }
      | .ok key =>
        { resp := { status := StatusOK,
                    body := [("key", .string key.DecryptionKey), ("pssh", .string key.PSSH)] },
          db := s, trace := [.Get i.PSSH] }

/-! ## The key cache store -/

/-- Modelled from the spec: the state of the Key Cache Store of section 4.4 (the
package behind `s.DB` is not among the sources). It holds at most one record per
content identifier; `failing` says that the backing store rejects writes, the
persistence failure for which `Insert` answers `error`. -/
structure Cache where
  records : List KeyRecord
  failing : Bool
deriving DecidableEq, Repr

/-- Modelled from the spec: `Insert(contentIdentifier, keyString) -> ok|error` of the
Key Cache Store. It overwrites any prior record for that identifier (last exchange
wins); a rejected write changes nothing and returns an error. -/
def Cache.Insert (c : Cache) (pssh key : String) : Cache × Option GoError :=
  if c.failing then (c, some { addr := 4, msg := "key cache: write failed" })
  else
    ({ c with records :=
        { PSSH := pssh, DecryptionKey := key } :: c.records.filter (fun r => r.PSSH ≠ pssh) },
      none)

/-- Modelled from the spec: `Get(contentIdentifier) -> KeyRecord|NotFoundError` of the
Key Cache Store; it fails if no record is kept for the identifier. -/
def Cache.Get (c : Cache) (pssh : String) : Except GoError KeyRecord :=
  match c.records.find? (fun r => r.PSSH = pssh) with
  | some r => .ok r
  | none => .error { addr := 5, msg := "key cache: not found" }

/-- Modelled from the spec: the Key Cache Store as the interface `s.DB` of the handlers. -/
def cacheDB : DB Cache := { Insert := Cache.Insert, Get := Cache.Get }

/-! ## Notions used to state the properties -/

/-- Key extraction succeeds on the parsed request `i` and returns `keys`: no required
field is empty, `getCDM` builds a session, the challenge and the license decode, and
the session's `GetLicenseKeys` returns `keys` without error. -/
def KeysExtracted (env : Env) (i : input) (keys : List Key) : Prop :=
  i.Challenge ≠ "" ∧ i.License ≠ "" ∧ i.PSSH ≠ "" ∧
  ∃ cdm licenseRequest decodedLicense,
    (getCDM env i.PSSH).1 = .ok cdm ∧
    env.DecodeString i.Challenge = .ok licenseRequest ∧
    env.DecodeString i.License = .ok decodedLicense ∧
    cdm.GetLicenseKeys licenseRequest decodedLicense = .ok keys

/-- The text one CONTENT entry contributes to the key string. -/
def hexPair (key : Key) : String :=
  hexEncodeToString key.ID ++ ":" ++ hexEncodeToString key.Value

/-- The entries of type CONTENT, in list order. -/
def contentKeys (keys : List Key) : List Key :=
  keys.filter (fun key => key.Type_ = License_KeyContainer_CONTENT)

/-- Concatenation of strings in list order, nothing in between. -/
def concatStrings : List String → String
  | [] => ""
  | s :: rest => s ++ concatStrings rest

/-! ## Example data -/

/-- A session that returns one SIGNING and, for a non-empty challenge, one CONTENT entry. -/
def cdmEx : CDM :=
  { GetLicenseRequest := .ok [8, 1],
    GetLicenseKeys := fun licenseRequest _ =>
      match licenseRequest with
      | [] => .ok [{ ID := [1], Type_ := License_KeyContainer_SIGNING, Value := [2] }]
      | _ => .ok [{ ID := [1], Type_ := License_KeyContainer_SIGNING, Value := [2] },
                  { ID := [10], Type_ := License_KeyContainer_CONTENT, Value := [171, 205] }] }

/-- An open file of two bytes. -/
def fileEx : File := { Stat := .ok 2, Read := fun _ => .ok [48, 49] }

/-- An environment in which both paths are configured, every file opens, `"!"` is
not base64 and `"AA=="` decodes to one zero byte. -/
def envEx : Env :=
  { Getenv := fun name => if name = "WV_CLIENT_ID" then "/id" else "/key",
    Open := fun _ => .ok fileEx,
    DecodeString := fun s =>
      if s = "!" then .error { addr := 6, msg := "illegal base64 data at input byte 0" }
      else if s = "AA==" then .ok [0] else .ok [],
    NewCDM := fun _ _ _ => .ok cdmEx }

/-- A key request whose license carries one CONTENT entry. -/
def reqEx : input := { PSSH := "AAAA", Challenge := "AA==", License := "AAAA" }

/-- A key request whose license carries a SIGNING entry only. -/
def reqSigningOnly : input := { PSSH := "AAAA", Challenge := "AAAA", License := "AAAA" }

/-- A key request whose license is not base64. -/
def reqBadLicense : input := { PSSH := "AAAA", Challenge := "AA==", License := "!" }

/-- A key request for another identifier. -/
def reqOther : input := { PSSH := "BBBB", Challenge := "AA==", License := "AAAA" }

/-- An empty cache whose backing store rejects writes. -/
def cacheDown : Cache := { records := [], failing := true }

/-- An empty cache that accepts writes. -/
def cacheUp : Cache := { records := [], failing := false }

/-! ## Lemmas -/

theorem concatStrings_foldl (acc : String) (keys : List Key) :
    keys.foldl (fun decryptionKey key =>
      if key.Type_ = License_KeyContainer_CONTENT then
        decryptionKey ++ (hexEncodeToString key.ID ++ ":" ++ hexEncodeToString key.Value)
      else decryptionKey) acc
    = acc ++ concatStrings ((contentKeys keys).map hexPair) := by
  induction keys generalizing acc with
  | nil => simp [contentKeys, concatStrings]
  | cons key rest ih =>
    rw [List.foldl_cons, ih]
    by_cases h : key.Type_ = License_KeyContainer_CONTENT
    · simp [contentKeys, h, concatStrings, hexPair, String.append_assoc]
    · simp [contentKeys, h]

theorem decryptionKeyOf_eq (keys : List Key) :
    decryptionKeyOf keys = concatStrings ((contentKeys keys).map hexPair) := by
  unfold decryptionKeyOf
  rw [concatStrings_foldl]
  simp

/-- The response and the store state of `KeyHandler` once key extraction succeeded. -/
theorem KeyHandler_of_extracted {σ : Type} (db : DB σ) (env : Env) (s : σ) (i : input)
    (keys : List Key) (h : KeysExtracted env i keys) :
    (KeyHandler db env s (.ok i)).resp =
        { status := StatusOK,
          body := [("key", .string (decryptionKeyOf keys)), ("pssh", .string i.PSSH)] } ∧
      (KeyHandler db env s (.ok i)).db = (db.Insert s i.PSSH (decryptionKeyOf keys)).1 := by
  obtain ⟨hc, hl, hp, cdm, lr, dl, hcdm, hlr, hdl, hk⟩ := h
  unfold KeyHandler
  rcases hg : getCDM env i.PSSH with ⟨r, t⟩
  rw [hg] at hcdm
  simp only at hcdm
  subst hcdm
  rcases hins : db.Insert s i.PSSH (decryptionKeyOf keys) with ⟨s1, e⟩
  cases e <;> simp [hc, hl, hp, hlr, hdl, hk, hg, hins]

theorem hexPair_ne_empty (key : Key) : hexPair key ≠ "" := by
  intro h
  have hlen := congrArg String.length h
  simp only [hexPair, String.length_append] at hlen
  have h1 : ":".length = 1 := rfl
  have h0 : "".length = 0 := rfl
  omega

theorem concatStrings_hexPair_eq_empty (keys : List Key) :
    concatStrings (keys.map hexPair) = "" ↔ keys = [] := by
  cases keys with
  | nil => simp [concatStrings]
  | cons key rest =>
    simp only [List.map_cons, concatStrings, reduceCtorEq, iff_false]
    intro h
    have hlen := congrArg String.length h
    have hne : (hexPair key).length ≠ 0 := by
      intro h0
      exact hexPair_ne_empty key (by
        apply String.ext
        simpa using List.length_eq_zero.mp h0)
    simp [String.length_append] at hlen
    exact hne hlen.1

theorem readAsByte_trace (env : Env) (filename : String) (p k : String) :
    Event.Insert p k ∉ (readAsByte env filename).2 := by
  unfold readAsByte
  split
  · simp
  · split
    · simp
    · split <;> simp

theorem getCDM_trace (env : Env) (pssh : String) (p k : String) :
    Event.Insert p k ∉ (getCDM env pssh).2 := by
  have h1 := readAsByte_trace env (env.Getenv "WV_CLIENT_ID") p k
  have h2 := readAsByte_trace env (env.Getenv "WV_PRIVATE_KEY") p k
  unfold getCDM
  simp only
  split
  · simp
  · split
    · rename_i e t1 heq
      rw [heq] at h1
      simpa using h1
    · rename_i c t1 heq
      rw [heq] at h1
      split
      · rename_i e2 t2 heq2
        rw [heq2] at h2
        simp at h1 h2 ⊢
        exact ⟨h1, h2⟩
      · rename_i c2 t2 heq2
        rw [heq2] at h2
        simp at h1 h2
        split
        · simp [h1, h2]
        · split <;> simp [h1, h2]

/-- A 200 answer of `KeyHandler` comes from a successful key extraction. -/
theorem KeyHandler_ok_inv {σ : Type} (db : DB σ) (env : Env) (s : σ)
    (body : Except GoError input) (h : (KeyHandler db env s body).resp.status = 200) :
    ∃ i keys, body = .ok i ∧ KeysExtracted env i keys := by
  cases body with
  | error err => simp [KeyHandler, StatusInternalServerError] at h
  | ok i =>
    by_cases hv : i.Challenge = "" ∨ i.License = "" ∨ i.PSSH = ""
    · simp [KeyHandler, hv, StatusBadRequest] at h
    · rcases hg : getCDM env i.PSSH with ⟨r, t⟩
      cases r with
      | error e => simp [KeyHandler, hv, hg, StatusInternalServerError] at h
      | ok cdm =>
        cases h1 : env.DecodeString i.Challenge with
        | error e => simp [KeyHandler, hv, hg, h1, StatusInternalServerError] at h
        | ok licenseRequest =>
          cases h2 : env.DecodeString i.License with
          | error e => simp [KeyHandler, hv, hg, h1, h2, StatusInternalServerError] at h
          | ok decodedLicense =>
            cases h3 : cdm.GetLicenseKeys licenseRequest decodedLicense with
            | error e => simp [KeyHandler, hv, hg, h1, h2, h3, StatusInternalServerError] at h
            | ok keys =>
              refine ⟨i, keys, rfl, ?_, ?_, ?_, cdm, licenseRequest, decodedLicense, ?_, h1, h2, h3⟩
              · exact fun hc => hv (Or.inl hc)
              · exact fun hc => hv (Or.inr (Or.inl hc))
              · exact fun hc => hv (Or.inr (Or.inr hc))
              · rw [hg]

/-- The store state after `KeyHandler`: untouched, or the result of one `Insert` for the
identifier of the request. -/
theorem KeyHandler_db_cases {σ : Type} (db : DB σ) (env : Env) (s : σ)
    (body : Except GoError input) :
    (KeyHandler db env s body).db = s ∨
      ∃ i key, body = .ok i ∧ (KeyHandler db env s body).db = (db.Insert s i.PSSH key).1 := by
  by_cases h : (KeyHandler db env s body).resp.status = 200
  · obtain ⟨i, keys, hb, hk⟩ := KeyHandler_ok_inv db env s body h
    subst hb
    exact Or.inr ⟨i, _, rfl, (KeyHandler_of_extracted db env s i keys hk).2⟩
  · left
    cases body with
    | error err => simp [KeyHandler]
    | ok i =>
      by_cases hv : i.Challenge = "" ∨ i.License = "" ∨ i.PSSH = ""
      · simp [KeyHandler, hv]
      · rcases hg : getCDM env i.PSSH with ⟨r, t⟩
        cases r with
        | error e => simp [KeyHandler, hv, hg]
        | ok cdm =>
          cases h1 : env.DecodeString i.Challenge with
          | error e => simp [KeyHandler, hv, hg, h1]
          | ok licenseRequest =>
            cases h2 : env.DecodeString i.License with
            | error e => simp [KeyHandler, hv, hg, h1, h2]
            | ok decodedLicense =>
              cases h3 : cdm.GetLicenseKeys licenseRequest decodedLicense with
              | error e => simp [KeyHandler, hv, hg, h1, h2, h3]
              | ok keys =>
                exfalso
                apply h
                rcases hins : db.Insert s i.PSSH (decryptionKeyOf keys) with ⟨s1, e⟩
                cases e <;> simp [KeyHandler, hv, hg, h1, h2, h3, hins, StatusOK]

theorem Cache.Get_Insert_self (c : Cache) (X k : String)
    (h : (Cache.Insert c X k).2 = none) :
    Cache.Get (Cache.Insert c X k).1 X = .ok { PSSH := X, DecryptionKey := k } := by
  unfold Cache.Insert at h ⊢
  by_cases hf : c.failing = true
  · simp [hf] at h
  · simp [hf, Cache.Get]

theorem Cache.Get_Insert_other (c : Cache) (X Y k : String) (h : Y ≠ X) :
    Cache.Get (Cache.Insert c Y k).1 X = Cache.Get c X := by
  unfold Cache.Insert
  by_cases hf : c.failing = true
  · simp [hf]
  · have hfind : ∀ l : List KeyRecord,
        (l.filter (fun r => r.PSSH ≠ Y)).find? (fun r => r.PSSH = X)
          = l.find? (fun r => r.PSSH = X) := by
      intro l
      induction l with
      | nil => rfl
      | cons r rest ih =>
        by_cases hr : r.PSSH = Y
        · have hx : r.PSSH ≠ X := fun hx => h (hr ▸ hx)
          simp [List.filter_cons, hr, List.find?_cons, h]
          simpa [hr] using ih
        · by_cases hx : r.PSSH = X
          · have hxy : ¬ X = Y := fun e => h e.symm
            simp [List.filter_cons, List.find?_cons, hx, hxy]
          · simp [List.filter_cons, hr, List.find?_cons, hx]
            simpa using ih
    simp only [hf, Cache.Get, if_false, Bool.false_eq_true]
    rw [List.find?_cons]
    simp only [decide_eq_true_eq, h, decide_False]
    rw [hfind]

/-- Key requests for other identifiers do not change what the cache returns for `X`. -/
theorem Cache.Get_after_others (X : String) (others : List (Env × Except GoError input))
    (hothers : ∀ e ∈ others, ∀ j, e.2 = .ok j → j.PSSH ≠ X) (c : Cache) :
    Cache.Get (others.foldl (fun st e => (KeyHandler cacheDB e.1 st e.2).db) c) X
      = Cache.Get c X := by
  induction others generalizing c with
  | nil => rfl
  | cons e rest ih =>
    rw [List.foldl_cons, ih (fun e2 he2 => hothers e2 (List.mem_cons_of_mem _ he2))]
    rcases KeyHandler_db_cases cacheDB e.1 c e.2 with h | ⟨i, key, hb, h⟩
    · rw [h]
    · rw [h]
      exact Cache.Get_Insert_other c X i.PSSH key (hothers e (List.mem_cons_self _ _) i hb)

theorem base32Quantum_lt (b0 b1 b2 b3 b4 g : Nat) (h : g ∈ base32Quantum b0 b1 b2 b3 b4) :
    g < 32 := by
  simp only [base32Quantum, List.mem_cons, List.mem_singleton, List.not_mem_nil, or_false] at h
  rcases h with h | h | h | h | h | h | h | h <;> subst h <;> exact Nat.mod_lt _ (by norm_num)

theorem base32_std_char (g : Nat) (h : g < 32) :
    base32StdEncoding.encode.getD g 'A' ∈ base32StdEncoding.encode ∧
      base32StdEncoding.encode.getD g 'A' ≠ '=' := by
  interval_cases g <;> decide

theorem base32_std_map (groups : List Nat) (h : ∀ g ∈ groups, g < 32) :
    ∀ c ∈ groups.map (fun g => base32StdEncoding.encode.getD g 'A'),
      c ∈ base32StdEncoding.encode ∧ c ≠ '=' := by
  intro c hc
  obtain ⟨g, hg, rfl⟩ := List.mem_map.mp hc
  exact base32_std_char g (h g hg)

theorem base32Tail_NoPadding (groups : List Nat) (k : Nat) (h : ∀ g ∈ groups, g < 32) :
    ∀ c ∈ base32Tail (base32StdEncoding.WithPadding NoPadding) groups k,
      c ∈ base32StdEncoding.encode ∧ c ≠ '=' := by
  intro c hc
  simp only [base32Tail, Encoding.WithPadding, NoPadding, List.append_nil] at hc
  exact base32_std_map (groups.take k) (fun g hg => h g (List.mem_of_mem_take hg)) c hc

/-- Every character of an unpadded standard base32 text is a letter of the alphabet. -/
theorem base32Encode_NoPadding_mem (src : List Nat) :
    ∀ c ∈ base32Encode (base32StdEncoding.WithPadding NoPadding) src,
      c ∈ base32StdEncoding.encode ∧ c ≠ '=' := by
  induction src using base32Encode.induct (base32StdEncoding.WithPadding NoPadding) with
  | case1 => simp [base32Encode]
  | case2 b0 =>
    rw [base32Encode]
    exact base32Tail_NoPadding _ _ (fun g hg => base32Quantum_lt _ _ _ _ _ g hg)
  | case3 b0 b1 =>
    rw [base32Encode]
    exact base32Tail_NoPadding _ _ (fun g hg => base32Quantum_lt _ _ _ _ _ g hg)
  | case4 b0 b1 b2 =>
    rw [base32Encode]
    exact base32Tail_NoPadding _ _ (fun g hg => base32Quantum_lt _ _ _ _ _ g hg)
  | case5 b0 b1 b2 b3 =>
    rw [base32Encode]
    exact base32Tail_NoPadding _ _ (fun g hg => base32Quantum_lt _ _ _ _ _ g hg)
  | case6 b0 b1 b2 b3 b4 rest ih =>
    rw [base32Encode]
    intro c hc
    rcases List.mem_append.mp hc with hc | hc
    · exact base32_std_map _ (fun g hg => base32Quantum_lt _ _ _ _ _ g hg) c hc
    · exact ih c hc

/-- Sixteen bytes make twenty-six unpadded base32 characters. -/
theorem base32Encode_NoPadding_length (src : List Nat) (h : src.length = 16) :
    (base32Encode (base32StdEncoding.WithPadding NoPadding) src).length = 26 := by
  match src, h with
  | [a0, a1, a2, a3, a4, a5, a6, a7, a8, a9, a10, a11, a12, a13, a14, a15], _ =>
    simp [base32Encode, base32Tail, base32Quantum, Encoding.WithPadding, NoPadding]

/-! ## The properties -/

/-- C1: whenever key extraction returns the list `keys`, the key string in the response
of KeyHandler is the concatenation, in list order and with nothing between successive
pairs, of hex(ID) ++ ":" ++ hex(Value) over exactly the entries of type CONTENT. -/
theorem KeyHandler_key_is_content_pairs {σ : Type} (db : DB σ) (env : Env) (s : σ)
    (i : input) (keys : List Key) (h : KeysExtracted env i keys) :
    (KeyHandler db env s (.ok i)).resp.body =
      [("key", .string (concatStrings ((contentKeys keys).map hexPair))),
       ("pssh", .string i.PSSH)] := by
  rw [(KeyHandler_of_extracted db env s i keys h).1, decryptionKeyOf_eq]

theorem KeyHandler_key_is_content_pairs_witness :
    KeysExtracted envEx reqEx
        [{ ID := [1], Type_ := License_KeyContainer_SIGNING, Value := [2] },
         { ID := [10], Type_ := License_KeyContainer_CONTENT, Value := [171, 205] }] ∧
      (KeyHandler cacheDB envEx cacheUp (.ok reqEx)).resp.body =
        [("key", .string (concatStrings ((contentKeys
            [{ ID := [1], Type_ := License_KeyContainer_SIGNING, Value := [2] },
             { ID := [10], Type_ := License_KeyContainer_CONTENT, Value := [171, 205] }]).map
            hexPair))),
         ("pssh", .string reqEx.PSSH)] :=
  have h : KeysExtracted envEx reqEx
      [{ ID := [1], Type_ := License_KeyContainer_SIGNING, Value := [2] },
       { ID := [10], Type_ := License_KeyContainer_CONTENT, Value := [171, 205] }] :=
    ⟨by decide, by decide, by decide, cdmEx, [0], [], rfl, rfl, rfl, rfl⟩
  ⟨h, KeyHandler_key_is_content_pairs cacheDB envEx cacheUp reqEx _ h⟩

/-- C2 fails as stated: on a license that carries a SIGNING entry only, key extraction
succeeds and KeyHandler answers 200 with the empty key string. -/
theorem KeyHandler_key_may_be_empty :
    KeysExtracted envEx reqSigningOnly
        [{ ID := [1], Type_ := License_KeyContainer_SIGNING, Value := [2] }] ∧
      (KeyHandler cacheDB envEx cacheUp (.ok reqSigningOnly)).resp =
        { status := 200, body := [("key", .string ""), ("pssh", .string "AAAA")] } :=
  ⟨⟨by decide, by decide, by decide, cdmEx, [], [], rfl, rfl, rfl, rfl⟩, rfl⟩

/-- C2, amended: whenever key extraction returns the list `keys`, KeyHandler answers 200
and the key string of the response is non-empty exactly when `keys` has at least one
entry of type CONTENT. -/
theorem KeyHandler_key_nonempty_iff {σ : Type} (db : DB σ) (env : Env) (s : σ)
    (i : input) (keys : List Key) (h : KeysExtracted env i keys) :
    ∃ key : String,
      (KeyHandler db env s (.ok i)).resp =
          { status := 200, body := [("key", .string key), ("pssh", .string i.PSSH)] } ∧
        (key ≠ "" ↔ ∃ k ∈ keys, k.Type_ = License_KeyContainer_CONTENT) := by
  refine ⟨decryptionKeyOf keys, (KeyHandler_of_extracted db env s i keys h).1, ?_⟩
  rw [decryptionKeyOf_eq, Ne, concatStrings_hexPair_eq_empty]
  simp [contentKeys, List.filter_eq_nil_iff]

theorem KeyHandler_key_nonempty_iff_witness :
    KeysExtracted envEx reqEx
        [{ ID := [1], Type_ := License_KeyContainer_SIGNING, Value := [2] },
         { ID := [10], Type_ := License_KeyContainer_CONTENT, Value := [171, 205] }] ∧
      ∃ key : String,
        (KeyHandler cacheDB envEx cacheUp (.ok reqEx)).resp =
            { status := 200, body := [("key", .string key), ("pssh", .string reqEx.PSSH)] } ∧
          (key ≠ "" ↔ ∃ k ∈
            [{ ID := [1], Type_ := License_KeyContainer_SIGNING, Value := [2] },
             ({ ID := [10], Type_ := License_KeyContainer_CONTENT, Value := [171, 205] } : Key)],
            k.Type_ = License_KeyContainer_CONTENT) :=
  have h : KeysExtracted envEx reqEx
      [{ ID := [1], Type_ := License_KeyContainer_SIGNING, Value := [2] },
       { ID := [10], Type_ := License_KeyContainer_CONTENT, Value := [171, 205] }] :=
    ⟨by decide, by decide, by decide, cdmEx, [0], [], rfl, rfl, rfl, rfl⟩
  ⟨h, KeyHandler_key_nonempty_iff cacheDB envEx cacheUp reqEx _ h⟩

/-- C4: a cache-write failure does not fail key redemption. Whenever key extraction
returns `keys`, KeyHandler answers 200 with a body whose "key" member is the key string
built from `keys` and whose "pssh" member is the pssh of the request; the response is
the same over any two stores and store states, so also over one whose Insert returns an
error and one whose Insert returns none; and in both the store state left behind is the
one Insert returned for that pssh and key string. -/
theorem KeyHandler_response_independent_of_Insert {σ τ : Type} (db1 : DB σ) (db2 : DB τ)
    (env : Env) (s1 : σ) (s2 : τ) (i : input) (keys : List Key)
    (h : KeysExtracted env i keys) :
    (KeyHandler db1 env s1 (.ok i)).resp.status = 200 ∧
      (KeyHandler db1 env s1 (.ok i)).resp.body =
        [("key", .string (decryptionKeyOf keys)), ("pssh", .string i.PSSH)] ∧
      (KeyHandler db1 env s1 (.ok i)).resp = (KeyHandler db2 env s2 (.ok i)).resp ∧
      (KeyHandler db1 env s1 (.ok i)).db = (db1.Insert s1 i.PSSH (decryptionKeyOf keys)).1 ∧
      (KeyHandler db2 env s2 (.ok i)).db = (db2.Insert s2 i.PSSH (decryptionKeyOf keys)).1 := by
  obtain ⟨hr1, hd1⟩ := KeyHandler_of_extracted db1 env s1 i keys h
  obtain ⟨hr2, hd2⟩ := KeyHandler_of_extracted db2 env s2 i keys h
  refine ⟨?_, ?_, ?_, hd1, hd2⟩
  · rw [hr1]
    rfl
  · rw [hr1]
  · rw [hr1, hr2]

theorem KeyHandler_response_independent_of_Insert_witness :
    (KeysExtracted envEx reqEx
        [{ ID := [1], Type_ := License_KeyContainer_SIGNING, Value := [2] },
         { ID := [10], Type_ := License_KeyContainer_CONTENT, Value := [171, 205] }] ∧
      (cacheDB.Insert cacheDown "AAAA" "0a:abcd").2 ≠ none ∧
      (cacheDB.Insert cacheUp "AAAA" "0a:abcd").2 = none ∧
      (KeyHandler cacheDB envEx cacheDown (.ok reqEx)).resp =
        { status := 200, body := [("key", .string "0a:abcd"), ("pssh", .string "AAAA")] }) ∧
      (KeyHandler cacheDB envEx cacheDown (.ok reqEx)).resp.status = 200 ∧
      (KeyHandler cacheDB envEx cacheDown (.ok reqEx)).resp.body =
        [("key", .string (decryptionKeyOf
            [{ ID := [1], Type_ := License_KeyContainer_SIGNING, Value := [2] },
             { ID := [10], Type_ := License_KeyContainer_CONTENT, Value := [171, 205] }])),
         ("pssh", .string reqEx.PSSH)] ∧
      (KeyHandler cacheDB envEx cacheDown (.ok reqEx)).resp =
        (KeyHandler cacheDB envEx cacheUp (.ok reqEx)).resp ∧
      (KeyHandler cacheDB envEx cacheDown (.ok reqEx)).db =
        (cacheDB.Insert cacheDown reqEx.PSSH (decryptionKeyOf
            [{ ID := [1], Type_ := License_KeyContainer_SIGNING, Value := [2] },
             { ID := [10], Type_ := License_KeyContainer_CONTENT, Value := [171, 205] }])).1 ∧
      (KeyHandler cacheDB envEx cacheUp (.ok reqEx)).db =
        (cacheDB.Insert cacheUp reqEx.PSSH (decryptionKeyOf
            [{ ID := [1], Type_ := License_KeyContainer_SIGNING, Value := [2] },
             { ID := [10], Type_ := License_KeyContainer_CONTENT, Value := [171, 205] }])).1 :=
  have h : KeysExtracted envEx reqEx
      [{ ID := [1], Type_ := License_KeyContainer_SIGNING, Value := [2] },
       { ID := [10], Type_ := License_KeyContainer_CONTENT, Value := [171, 205] }] :=
    ⟨by decide, by decide, by decide, cdmEx, [0], [], rfl, rfl, rfl, rfl⟩
  ⟨⟨h, by decide, by decide, rfl⟩,
    KeyHandler_response_independent_of_Insert cacheDB cacheDB envEx cacheDown cacheUp reqEx _ h⟩

/-- C5: on a parsed request whose pssh field is empty, ChallengeHandler answers 400 and
makes no outside call at all: getCDM is not entered, so no environment variable is read,
no file is opened and no session is built. -/
theorem ChallengeHandler_empty_pssh (env : Env) (i : input) (h : i.PSSH = "") :
    (ChallengeHandler env (.ok i)).1.status = 400 ∧ (ChallengeHandler env (.ok i)).2 = [] := by
  simp [ChallengeHandler, h, StatusBadRequest]

theorem ChallengeHandler_empty_pssh_witness :
    ({ Challenge := "AA==" } : input).PSSH = "" ∧
      (ChallengeHandler envEx (.ok { Challenge := "AA==" })).1.status = 400 ∧
      (ChallengeHandler envEx (.ok { Challenge := "AA==" })).2 = [] :=
  ⟨rfl, ChallengeHandler_empty_pssh envEx { Challenge := "AA==" } rfl⟩

/-- C6: on a parsed request, KeyHandler answers 400 if and only if at least one of pssh,
challenge, license is empty; and when one is, it makes no outside call (no credential
loading, no session, no base64 decoding, no cache write) and leaves the store as it was. -/
theorem KeyHandler_bad_request_iff {σ : Type} (db : DB σ) (env : Env) (s : σ) (i : input) :
    ((KeyHandler db env s (.ok i)).resp.status = 400 ↔
        (i.PSSH = "" ∨ i.Challenge = "" ∨ i.License = "")) ∧
      ((i.PSSH = "" ∨ i.Challenge = "" ∨ i.License = "") →
        (KeyHandler db env s (.ok i)).trace = [] ∧ (KeyHandler db env s (.ok i)).db = s) := by
  by_cases hv : i.Challenge = "" ∨ i.License = "" ∨ i.PSSH = ""
  · have hv2 : i.PSSH = "" ∨ i.Challenge = "" ∨ i.License = "" := by tauto
    simp [KeyHandler, hv, hv2, StatusBadRequest]
  · have hv2 : ¬ (i.PSSH = "" ∨ i.Challenge = "" ∨ i.License = "") := by tauto
    refine ⟨?_, fun h => absurd h hv2⟩
    simp only [hv2, iff_false]
    unfold KeyHandler
    simp only [hv, if_false]
    repeat' split
    all_goals simp [StatusInternalServerError, StatusOK]

/-- C8, what the code does: on an empty pssh field the JSON body of ChallengeHandler is
an object whose "error" member is the empty object; the text of PsshNotFound is not in it. -/
theorem ChallengeHandler_error_member_is_empty_object (env : Env) :
    (ChallengeHandler env (.ok { PSSH := "" })).1.status = 400 ∧
      (ChallengeHandler env (.ok { PSSH := "" })).1.json = .obj [("error", .obj [])] ∧
      (ChallengeHandler env (.ok { PSSH := "" })).1.json.member "error"
        ≠ some (.str PsshNotFound.Error) := by
  simp [ChallengeHandler, Response.json, marshal, marshalValue, Json.member, StatusBadRequest]

/-- C9: for every error the credential validator reports, errHandler answers 401 with a
body whose only member, "error", is exactly the message of that error. -/
theorem errHandler_unauthorized (err : GoError) :
    errHandler err = { status := 401, body := [("error", .string err.Error)] } ∧
      (errHandler err).json = .obj [("error", .str err.Error)] := by
  unfold errHandler
  split <;> simp [StatusUnauthorized, Response.json, marshal, marshalValue]

/-- C10: failed redemptions never touch the key cache. Whenever KeyHandler answers with a
status other than 200 (whatever the outcome of body parsing), the store state is the one
it started from and no Insert call is in its trace. -/
theorem KeyHandler_failure_leaves_cache {σ : Type} (db : DB σ) (env : Env) (s : σ)
    (body : Except GoError input) (h : (KeyHandler db env s body).resp.status ≠ 200) :
    (KeyHandler db env s body).db = s ∧
      ∀ pssh key, Event.Insert pssh key ∉ (KeyHandler db env s body).trace := by
  cases body with
  | error err => simp [KeyHandler]
  | ok i =>
    have hcdm := fun p k => getCDM_trace env i.PSSH p k
    by_cases hv : i.Challenge = "" ∨ i.License = "" ∨ i.PSSH = ""
    · simp [KeyHandler, hv]
    · rcases hg : getCDM env i.PSSH with ⟨r, t⟩
      rw [hg] at hcdm
      simp only at hcdm
      cases r with
      | error e => simpa [KeyHandler, hv, hg] using hcdm
      | ok cdm =>
        cases h1 : env.DecodeString i.Challenge with
        | error e => simpa [KeyHandler, hv, hg, h1] using hcdm
        | ok licenseRequest =>
          cases h2 : env.DecodeString i.License with
          | error e => simpa [KeyHandler, hv, hg, h1, h2] using hcdm
          | ok decodedLicense =>
            cases h3 : cdm.GetLicenseKeys licenseRequest decodedLicense with
            | error e => simpa [KeyHandler, hv, hg, h1, h2, h3] using hcdm
            | ok keys =>
              exfalso
              apply h
              rcases hins : db.Insert s i.PSSH (decryptionKeyOf keys) with ⟨s1, e⟩
              cases e <;> simp [KeyHandler, hv, hg, h1, h2, h3, hins, StatusOK]

theorem KeyHandler_failure_leaves_cache_witness :
    (KeyHandler cacheDB envEx cacheUp (.ok reqBadLicense)).resp.status ≠ 200 ∧
      (KeyHandler cacheDB envEx cacheUp (.ok reqBadLicense)).db = cacheUp ∧
      ∀ pssh key, Event.Insert pssh key ∉
        (KeyHandler cacheDB envEx cacheUp (.ok reqBadLicense)).trace :=
  ⟨by decide,
    KeyHandler_failure_leaves_cache cacheDB envEx cacheUp (.ok reqBadLicense) (by decide)⟩

/-- C3 fails as stated: over a store that rejects the write, KeyHandler answers 200 for
the identifier "AAAA" with key "0a:abcd", and the ArsenalKeyHandler request for "AAAA"
that follows answers 500. -/
theorem cache_round_trip_fails_when_write_fails :
    (KeyHandler cacheDB envEx cacheDown (.ok reqEx)).resp =
        { status := 200, body := [("key", .string "0a:abcd"), ("pssh", .string "AAAA")] } ∧
      (ArsenalKeyHandler cacheDB (KeyHandler cacheDB envEx cacheDown (.ok reqEx)).db
        (.ok { PSSH := "AAAA" })).resp.status = 500 :=
  ⟨rfl, rfl⟩

/-- C3, amended: for every identifier X, after KeyHandler answers 200 for X with key
string k and the Insert of the store reported no error, an ArsenalKeyHandler request for
X that follows, with only key requests for other identifiers in between, answers 200
with key equal to k and pssh equal to X. -/
theorem cache_round_trip (env : Env) (c : Cache) (body : Except GoError input)
    (X k : String) (others : List (Env × Except GoError input)) (j : input)
    (h200 : (KeyHandler cacheDB env c body).resp =
      { status := 200, body := [("key", .string k), ("pssh", .string X)] })
    (hins : (cacheDB.Insert c X k).2 = none)
    (hothers : ∀ e ∈ others, ∀ i, e.2 = .ok i → i.PSSH ≠ X)
    (hj : j.PSSH = X) :
    (ArsenalKeyHandler cacheDB
        (others.foldl (fun st e => (KeyHandler cacheDB e.1 st e.2).db)
          (KeyHandler cacheDB env c body).db)
        (.ok j)).resp =
      { status := 200, body := [("key", .string k), ("pssh", .string X)] } := by
  obtain ⟨i, keys, hb, hk⟩ :=
    KeyHandler_ok_inv cacheDB env c body (by rw [h200])
  subst hb
  obtain ⟨hresp, hdb⟩ := KeyHandler_of_extracted cacheDB env c i keys hk
  rw [hresp] at h200
  simp only [Response.mk.injEq, List.cons.injEq, Prod.mk.injEq, GoValue.string.injEq,
    true_and, and_true] at h200
  obtain ⟨-, hkey, hpssh⟩ := h200
  rw [hkey, hpssh] at hdb
  have hX : X ≠ "" := hpssh ▸ hk.2.2.1
  have hself : Cache.Get (KeyHandler cacheDB env c (.ok i)).db X
      = .ok { PSSH := X, DecryptionKey := k } := by
    rw [hdb]
    exact Cache.Get_Insert_self c X k hins
  have hget : cacheDB.Get (others.foldl (fun st e => (KeyHandler cacheDB e.1 st e.2).db)
      (KeyHandler cacheDB env c (.ok i)).db) X = .ok { PSSH := X, DecryptionKey := k } :=
    (Cache.Get_after_others X others hothers (KeyHandler cacheDB env c (.ok i)).db).trans hself
  unfold ArsenalKeyHandler
  simp only [hj, hX, if_false]
  rw [hget]
  rfl

theorem cache_round_trip_witness :
    ((KeyHandler cacheDB envEx cacheUp (.ok reqEx)).resp =
        { status := 200, body := [("key", .string "0a:abcd"), ("pssh", .string "AAAA")] } ∧
      (cacheDB.Insert cacheUp "AAAA" "0a:abcd").2 = none ∧
      (∀ e ∈ [(envEx, (Except.ok reqOther : Except GoError input))],
        ∀ i, e.2 = .ok i → i.PSSH ≠ "AAAA") ∧
      ({ PSSH := "AAAA" } : input).PSSH = "AAAA") ∧
      (ArsenalKeyHandler cacheDB
          ([(envEx, (Except.ok reqOther : Except GoError input))].foldl
            (fun st e => (KeyHandler cacheDB e.1 st e.2).db)
            (KeyHandler cacheDB envEx cacheUp (.ok reqEx)).db)
          (.ok { PSSH := "AAAA" })).resp =
        { status := 200, body := [("key", .string "0a:abcd"), ("pssh", .string "AAAA")] } :=
  have hothers : ∀ e ∈ [(envEx, (Except.ok reqOther : Except GoError input))],
      ∀ i, e.2 = .ok i → i.PSSH ≠ "AAAA" := by
    intro e he i hi
    rw [List.mem_singleton] at he
    subst he
    cases hi
    decide
  ⟨⟨rfl, rfl, hothers, rfl⟩,
    cache_round_trip envEx cacheUp (.ok reqEx) "AAAA" "0a:abcd" _ { PSSH := "AAAA" }
      rfl rfl hothers rfl⟩

/-- C7: for every 16-byte sequence the random source delivers, generatePasskey returns a
token of exactly 26 characters, each of them in the standard base32 alphabet (A-Z, 2-7)
and none of them the padding character. -/
theorem generatePasskey_token (randomBytes : List Nat) (h : randomBytes.length = 16) :
    ∃ token, generatePasskey (.ok randomBytes) = .ok token ∧ token.length = 26 ∧
      ∀ c ∈ token.toList, c ∈ "ABCDEFGHIJKLMNOPQRSTUVWXYZ234567".toList ∧ c ≠ '=' :=
  ⟨_, rfl, base32Encode_NoPadding_length randomBytes h,
    base32Encode_NoPadding_mem randomBytes⟩

theorem generatePasskey_token_witness :
    (List.range 16).length = 16 ∧
      ∃ token, generatePasskey (.ok (List.range 16)) = .ok token ∧ token.length = 26 ∧
        ∀ c ∈ token.toList, c ∈ "ABCDEFGHIJKLMNOPQRSTUVWXYZ234567".toList ∧ c ≠ '=' :=
  ⟨rfl, generatePasskey_token (List.range 16) rfl⟩

end Server
